import Mathlib

/-!
A shallow embedding of the core logic of the OnaniMemoChan bot
(`src/onani_memo_chan/`): the session state machine (`flow.py`,
`session.py`), the caller-side action guard (`handlers.py`), the
statistics engine (`stats.py`, `ui.py`) and the persistence operations
(`repositories.py`).  Python `datetime` values are embedded as exact
numbers (seconds as `Int` where only comparison and subtraction occur,
days as `ℚ` where division occurs); in-memory dicts and SQL tables are
embedded as association lists; exceptions are embedded as `Option`.
-/

namespace OnaniMemo

/-- `Step` from `enums.py`: position in the guided entry. -/
inductive Step
  | RATING
  | DURATION
  | VOLUME
  | VISCOSITY
deriving DecidableEq

/-- `Action` from `enums.py`: tagged user input events. -/
inductive Action
  | RATING
  | DURATION
  | VOLUME
  | VISCOSITY
  | UNDO
deriving DecidableEq

/-- `DurationCode` from `enums.py`. -/
inductive DurationCode
  | LE5
  | LE10
  | LE30
  | LE60
  | GT60
deriving DecidableEq

/-- `VolumeCode` from `enums.py`. -/
inductive VolumeCode
  | LOW
  | MID
  | HIGH
deriving DecidableEq

/-- `ViscosityCode` from `enums.py`. -/
inductive ViscosityCode
  | V1
  | V2
  | V3
  | V4
  | V5
deriving DecidableEq

/-- Value lookup of the `DurationCode` StrEnum: `DurationCode(value)`
raises `ValueError` (here: `none`) unless `value` is exactly one of the
member strings. -/
def DurationCode.ofString : String → Option DurationCode
  | "LE5" => some .LE5
  | "LE10" => some .LE10
  | "LE30" => some .LE30
  | "LE60" => some .LE60
  | "GT60" => some .GT60
  | _ => none

/-- Value lookup of the `VolumeCode` StrEnum. -/
def VolumeCode.ofString : String → Option VolumeCode
  | "LOW" => some .LOW
  | "MID" => some .MID
  | "HIGH" => some .HIGH
  | _ => none

/-- Value lookup of the `ViscosityCode` StrEnum. -/
def ViscosityCode.ofString : String → Option ViscosityCode
  | "V1" => some .V1
  | "V2" => some .V2
  | "V3" => some .V3
  | "V4" => some .V4
  | "V5" => some .V5
  | _ => none

/-- `Session` dataclass from `session.py`.  `created_at_utc` is embedded
as seconds (`Int`); only subtraction and comparison are performed on it. -/
structure Session where
  session_id : String
  user_id : Int
  chat_id : Int
  message_id : Int
  step : Step
  created_at_utc : Int
  rating : Option Int
  duration_code : Option DurationCode
  volume_code : Option VolumeCode
  viscosity_code : Option ViscosityCode
  finalizing : Bool
deriving DecidableEq

/-- The session built by `SessionManager.create` (`session.py` lines
31-42): step `RATING`, all four value fields `None`, `finalizing` false.
The generated `session_id` string and the clock reading are parameters
here (they are produced by `uuid4`/`utc_now` in the source). -/
def create_session (user_id chat_id message_id : Int) (session_id : String)
    (now : Int) : Session :=
  { session_id := session_id
    user_id := user_id
    chat_id := chat_id
    message_id := message_id
    step := Step.RATING
    created_at_utc := now
    rating := none
    duration_code := none
    volume_code := none
    viscosity_code := none
    finalizing := false }

/-- Value of an ASCII decimal digit character. -/
def digitVal (c : Char) : Nat := c.toNat - 48

/-- Digit tail of CPython `int(str)` base-10 parsing, after one accepted
digit with value `acc` so far: further digits, optionally separated by
single underscores (an underscore must sit between two digits). -/
def pyDigitsRest (acc : Nat) : List Char → Option Nat
  | [] => some acc
  | ['_'] => none
  | '_' :: c :: cs =>
    if c.isDigit then pyDigitsRest (10 * acc + digitVal c) cs else none
  | c :: cs =>
    if c.isDigit then pyDigitsRest (10 * acc + digitVal c) cs else none

/-- A CPython digit group: nonempty, starts with a digit. -/
def pyDigits : List Char → Option Nat
  | [] => none
  | c :: cs => if c.isDigit then pyDigitsRest (digitVal c) cs else none

/-- Sign handling of CPython `int(str)`. -/
def pyIntCore : List Char → Option Int
  | [] => none
  | c :: cs =>
    if c = '+' then (pyDigits cs).map (fun n => (n : Int))
    else if c = '-' then (pyDigits cs).map (fun n => -(n : Int))
    else (pyDigits (c :: cs)).map (fun n => (n : Int))

/-- CPython `int(value)` on an ASCII string: surrounding whitespace is
stripped, then an optional sign and a digit group; `none` models the
`ValueError` raised on any other input. -/
def pyInt (s : String) : Option Int :=
  pyIntCore (((s.toList.dropWhile Char.isWhitespace).reverse.dropWhile
    Char.isWhitespace).reverse)

/-- `StepTransition` from `flow.py`. -/
structure StepTransition where
  session : Session
  next_step : Option Step
deriving DecidableEq

/-- `_handle_rating` (`flow.py` lines 17-23): `int(value)` may raise
(`none`), a value outside `[1, 5]` raises, otherwise `rating` is set and
`step` becomes `DURATION`.  Both raises happen before any field is
assigned, so the error case leaves the Python session object untouched;
the embedding returns `none` for it. -/
def handle_rating (session : Session) (value : String) : Option StepTransition :=
  match pyInt value with
  | none => none
  | some rating =>
    if rating < 1 ∨ rating > 5 then none
    else
      some { session := { session with rating := some rating, step := Step.DURATION }
             next_step := some Step.DURATION }

/-- `_handle_duration` (`flow.py` lines 26-29): `DurationCode(value)` is
evaluated (and may raise) before any assignment. -/
def handle_duration (session : Session) (value : String) : Option StepTransition :=
  match DurationCode.ofString value with
  | none => none
  | some code =>
    some { session := { session with duration_code := some code, step := Step.VOLUME }
           next_step := some Step.VOLUME }

/-- `_handle_volume` (`flow.py` lines 32-35). -/
def handle_volume (session : Session) (value : String) : Option StepTransition :=
  match VolumeCode.ofString value with
  | none => none
  | some code =>
    some { session := { session with volume_code := some code, step := Step.VISCOSITY }
           next_step := some Step.VISCOSITY }

/-- `_handle_viscosity` (`flow.py` lines 38-40): sets the field, leaves
`step` unchanged, and returns `next_step = None` (the terminal signal). -/
def handle_viscosity (session : Session) (value : String) : Option StepTransition :=
  match ViscosityCode.ofString value with
  | none => none
  | some code =>
    some { session := { session with viscosity_code := some code }
           next_step := none }

/-- `apply_action` (`flow.py` lines 51-53): dispatch through
`ACTION_HANDLERS`; `UNDO` is not a key of that dict, so looking it up
raises `KeyError` (`none`). -/
def apply_action (session : Session) (action : Action) (value : String) :
    Option StepTransition :=
  match action with
  | Action.RATING => handle_rating session value
  | Action.DURATION => handle_duration session value
  | Action.VOLUME => handle_volume session value
  | Action.VISCOSITY => handle_viscosity session value
  | Action.UNDO => none

/-- `_expected_action` (`handlers.py` lines 398-404). -/
def expected_action : Step → Action
  | Step.RATING => Action.RATING
  | Step.DURATION => Action.DURATION
  | Step.VOLUME => Action.VOLUME
  | Step.VISCOSITY => Action.VISCOSITY

/-- The session-mutating core of `_handle_session_action` (`handlers.py`
lines 359-374): with the session already looked up, a `finalizing`
session is answered without touching it, an action different from
`_expected_action(session.step)` is answered without invoking the state
machine, and a `ValueError`/`KeyError` escaping `apply_action` is caught
and answered without mutation.  (The `UNDO` branch diverts earlier in the
source and never reaches the session; `expected_action` never returns
`UNDO`, so the guard here yields the same no-op.)  The function returns
the session as it stands after the interaction. -/
def handle_session_action (session : Session) (action : Action) (value : String) :
    Session :=
  if session.finalizing then session
  else if expected_action session.step ≠ action then session
  else
    match apply_action session action value with
    | none => session
    | some transition => transition.session

/-- A concrete freshly created session used by witnesses below. -/
def demoSession : Session := create_session 1 2 0 "1_0_abcd" 0

/-- C3: an action whose tag differs from the action expected for the
session's current step leaves every field of the session and its step
unchanged: the caller-side guard rejects it before invoking the state
machine. -/
theorem C3_mismatched_action_noop (session : Session) (action : Action)
    (value : String) (h : expected_action session.step ≠ action) :
    handle_session_action session action value = session := by
  unfold handle_session_action
  by_cases hf : session.finalizing = true
  · rw [if_pos hf]
  · rw [if_neg hf, if_pos h]

/-- Witness for C3 at a concrete input: a `DURATION` press against a
fresh session (which expects `RATING`) is a no-op. -/
theorem C3_mismatched_action_noop_witness :
    handle_session_action demoSession Action.DURATION "LE5" = demoSession :=
  C3_mismatched_action_noop demoSession Action.DURATION "LE5" (by decide)

/-- Numeric position of a step in the fixed RATING → DURATION → VOLUME →
VISCOSITY order. -/
def stepIdx : Step → Nat
  | Step.RATING => 0
  | Step.DURATION => 1
  | Step.VOLUME => 2
  | Step.VISCOSITY => 3

/-- The session invariant of the spec: each of the four value fields is
non-null for exactly the steps already completed and null for all future
steps (the step named by `step` itself is not yet completed). -/
def sessionInv (s : Session) : Prop :=
  match s.step with
  | Step.RATING =>
      s.rating = none ∧ s.duration_code = none ∧ s.volume_code = none
        ∧ s.viscosity_code = none
  | Step.DURATION =>
      s.rating ≠ none ∧ s.duration_code = none ∧ s.volume_code = none
        ∧ s.viscosity_code = none
  | Step.VOLUME =>
      s.rating ≠ none ∧ s.duration_code ≠ none ∧ s.volume_code = none
        ∧ s.viscosity_code = none
  | Step.VISCOSITY =>
      s.rating ≠ none ∧ s.duration_code ≠ none ∧ s.volume_code ≠ none
        ∧ s.viscosity_code = none

/-- All four value fields populated (the state handed to finalize). -/
def allFieldsSet (s : Session) : Prop :=
  s.rating ≠ none ∧ s.duration_code ≠ none ∧ s.volume_code ≠ none
    ∧ s.viscosity_code ≠ none

/-- C1: a session built by `SessionManager.create` starts at step RATING
satisfying the invariant, and every accepted action (action tag matching
the current step, state machine succeeding) either advances `step` by
exactly one position forward and re-establishes the invariant, or — only
from step VISCOSITY — signals the terminal transition (`next_step =
none`) with all four value fields populated. -/
theorem C1_step_invariant :
    (∀ user_id chat_id message_id session_id now,
       sessionInv (create_session user_id chat_id message_id session_id now)
         ∧ (create_session user_id chat_id message_id session_id now).step
             = Step.RATING)
  ∧ (∀ (s : Session) (a : Action) (v : String) (t : StepTransition),
       sessionInv s → expected_action s.step = a → apply_action s a v = some t →
       ((∃ st, t.next_step = some st ∧ t.session.step = st
           ∧ stepIdx st = stepIdx s.step + 1 ∧ sessionInv t.session)
        ∨ (t.next_step = none ∧ s.step = Step.VISCOSITY
           ∧ t.session.step = Step.VISCOSITY ∧ allFieldsSet t.session))) := by
  constructor
  · intro user_id chat_id message_id session_id now
    exact ⟨by simp [create_session, sessionInv], rfl⟩
  · intro s a v t hinv hexp happ
    cases hs : s.step with
    | RATING =>
      rw [hs] at hexp
      simp only [expected_action] at hexp
      subst hexp
      simp only [apply_action, handle_rating] at happ
      split at happ
      · exact absurd happ (by simp)
      · split at happ
        · exact absurd happ (by simp)
        · simp only [Option.some.injEq] at happ
          subst happ
          simp only [sessionInv, hs] at hinv
          left
          refine ⟨Step.DURATION, rfl, rfl, rfl, ?_⟩
          simp only [sessionInv]
          exact ⟨by simp, hinv.2.1, hinv.2.2.1, hinv.2.2.2⟩
    | DURATION =>
      rw [hs] at hexp
      simp only [expected_action] at hexp
      subst hexp
      simp only [apply_action, handle_duration] at happ
      split at happ
      · exact absurd happ (by simp)
      · simp only [Option.some.injEq] at happ
        subst happ
        simp only [sessionInv, hs] at hinv
        left
        refine ⟨Step.VOLUME, rfl, rfl, rfl, ?_⟩
        simp only [sessionInv]
        exact ⟨hinv.1, by simp, hinv.2.2.1, hinv.2.2.2⟩
    | VOLUME =>
      rw [hs] at hexp
      simp only [expected_action] at hexp
      subst hexp
      simp only [apply_action, handle_volume] at happ
      split at happ
      · exact absurd happ (by simp)
      · simp only [Option.some.injEq] at happ
        subst happ
        simp only [sessionInv, hs] at hinv
        left
        refine ⟨Step.VISCOSITY, rfl, rfl, rfl, ?_⟩
        simp only [sessionInv]
        exact ⟨hinv.1, hinv.2.1, by simp, hinv.2.2.2⟩
    | VISCOSITY =>
      rw [hs] at hexp
      simp only [expected_action] at hexp
      subst hexp
      simp only [apply_action, handle_viscosity] at happ
      split at happ
      · exact absurd happ (by simp)
      · simp only [Option.some.injEq] at happ
        subst happ
        simp only [sessionInv, hs] at hinv
        right
        refine ⟨rfl, rfl, hs, ?_⟩
        simp only [allFieldsSet]
        exact ⟨hinv.1, hinv.2.1, hinv.2.2.1, by simp⟩

/-- Witness for C1 at a concrete input: the first accepted action of a
fresh session (a valid RATING press) reaches a state satisfying the
invariant. -/
theorem C1_step_invariant_witness :
    ∃ t : StepTransition, apply_action demoSession Action.RATING "3" = some t
      ∧ sessionInv t.session := by
  have hc := C1_step_invariant
  have hinv : sessionInv demoSession := (hc.1 1 2 0 "1_0_abcd" 0).1
  have h := hc.2 demoSession Action.RATING "3"
      { session := { demoSession with rating := some 3, step := Step.DURATION }
        next_step := some Step.DURATION } hinv (by decide) (by decide)
  rcases h with ⟨st, _, _, _, h4⟩ | ⟨h1, _⟩
  · exact ⟨_, by decide, h4⟩
  · exact absurd h1 (by simp)

/-- Counterexample for C2 as stated: the raw value `"+3"` is not a member
of `{"1","2","3","4","5"}`, yet `_handle_rating` parses it with Python
`int` to `3`, sets the rating and advances the step instead of raising a
validation error and leaving the session unchanged. -/
theorem C2_counterexample :
    ("+3" ∈ (["1", "2", "3", "4", "5"] : List String)) = False
  ∧ apply_action demoSession Action.RATING "+3"
      = some { session := { demoSession with rating := some 3, step := Step.DURATION }
               next_step := some Step.DURATION } := by
  constructor
  · simp
  · decide

/-- C2 (amended): a RATING action is accepted exactly when the raw value
parses as a Python integer in `[1, 5]` (so besides `"1"`..`"5"` also
spellings like `"+3"` or `"03"`), setting `rating` to that integer and
advancing to DURATION; a raw value that fails to parse, or parses outside
`[1, 5]` (such as `"0"`, `"6"`, `"-1"`, `"abc"`), is a validation error.
A DURATION/VOLUME/VISCOSITY action is accepted exactly when the raw value
is a member of that step's closed enumeration.  Every validation error
leaves all session fields and the step unchanged at the interaction
layer (atomicity on error). -/
theorem C2_validation (s : Session) (v : String) :
    (∀ r : Int, pyInt v = some r → 1 ≤ r → r ≤ 5 →
       apply_action s Action.RATING v
         = some { session := { s with rating := some r, step := Step.DURATION }
                  next_step := some Step.DURATION })
  ∧ (pyInt v = none → apply_action s Action.RATING v = none)
  ∧ (∀ r : Int, pyInt v = some r → (r < 1 ∨ 5 < r) →
       apply_action s Action.RATING v = none)
  ∧ (DurationCode.ofString v = none → apply_action s Action.DURATION v = none)
  ∧ (∀ c, DurationCode.ofString v = some c →
       apply_action s Action.DURATION v
         = some { session := { s with duration_code := some c, step := Step.VOLUME }
                  next_step := some Step.VOLUME })
  ∧ (VolumeCode.ofString v = none → apply_action s Action.VOLUME v = none)
  ∧ (∀ c, VolumeCode.ofString v = some c →
       apply_action s Action.VOLUME v
         = some { session := { s with volume_code := some c, step := Step.VISCOSITY }
                  next_step := some Step.VISCOSITY })
  ∧ (ViscosityCode.ofString v = none → apply_action s Action.VISCOSITY v = none)
  ∧ (∀ c, ViscosityCode.ofString v = some c →
       apply_action s Action.VISCOSITY v
         = some { session := { s with viscosity_code := some c }
                  next_step := none })
  ∧ (∀ a, apply_action s a v = none → handle_session_action s a v = s) := by
  refine ⟨?_, ?_, ?_, ?_, ?_, ?_, ?_, ?_, ?_, ?_⟩
  · intro r hp h1 h5
    simp only [apply_action, handle_rating, hp]
    rw [if_neg (by omega)]
  · intro hp
    simp only [apply_action, handle_rating, hp]
  · intro r hp hout
    simp only [apply_action, handle_rating, hp]
    rw [if_pos (by omega)]
  · intro hp
    simp only [apply_action, handle_duration, hp]
  · intro c hp
    simp only [apply_action, handle_duration, hp]
  · intro hp
    simp only [apply_action, handle_volume, hp]
  · intro c hp
    simp only [apply_action, handle_volume, hp]
  · intro hp
    simp only [apply_action, handle_viscosity, hp]
  · intro c hp
    simp only [apply_action, handle_viscosity, hp]
  · intro a happ
    unfold handle_session_action
    by_cases hf : s.finalizing = true
    · rw [if_pos hf]
    · rw [if_neg hf]
      by_cases hg : expected_action s.step ≠ a
      · rw [if_pos hg]
      · rw [if_neg hg, happ]

/-- Witness for C2 (amended) at concrete inputs: `"3"` is accepted,
`"0"`, `"6"`, `"-1"` and `"abc"` are validation errors and leave a fresh
session unchanged at the interaction layer, and an unrecognized duration
code is likewise rejected. -/
theorem C2_validation_witness :
    apply_action demoSession Action.RATING "3"
      = some { session := { demoSession with rating := some 3, step := Step.DURATION }
               next_step := some Step.DURATION }
  ∧ apply_action demoSession Action.RATING "0" = none
  ∧ apply_action demoSession Action.RATING "6" = none
  ∧ apply_action demoSession Action.RATING "-1" = none
  ∧ apply_action demoSession Action.RATING "abc" = none
  ∧ apply_action demoSession Action.DURATION "XX" = none
  ∧ handle_session_action demoSession Action.RATING "abc" = demoSession := by
  refine ⟨?_, ?_, ?_, ?_, ?_, ?_, ?_⟩
  · exact (C2_validation demoSession "3").1 3 (by decide) (by decide) (by decide)
  · exact (C2_validation demoSession "0").2.2.1 0 (by decide) (by decide)
  · exact (C2_validation demoSession "6").2.2.1 6 (by decide) (by decide)
  · exact (C2_validation demoSession "-1").2.2.1 (-1) (by decide) (by decide)
  · exact (C2_validation demoSession "abc").2.1 (by decide)
  · exact (C2_validation demoSession "XX").2.2.2.1 (by decide)
  · exact (C2_validation demoSession "abc").2.2.2.2.2.2.2.2.2 Action.RATING
      ((C2_validation demoSession "abc").2.1 (by decide))

/-- `SessionManager` (`session.py` lines 25-29): the registry's backing
dict is embedded as an association list from session id to session; the
`Lock` only serializes access and has no effect on the values computed. -/
structure SessionManager where
  ttl : Int
  sessions : List (String × Session)
deriving DecidableEq

/-- `SessionManager.remove` (`session.py` lines 48-50): `dict.pop` of the
given id (for the Nodup-keyed lists that model dicts, dropping every
entry with that key). -/
def SessionManager.remove (m : SessionManager) (session_id : String) :
    SessionManager :=
  { m with sessions := m.sessions.filter (fun p => p.1 ≠ session_id) }

/-- `SessionManager.cleanup_expired` (`session.py` lines 52-61): collect
the ids of sessions with `now - created_at_utc > ttl`, pop each collected
id, and return how many ids were collected. -/
def cleanup_expired (m : SessionManager) (now : Int) : SessionManager × Nat :=
  let expired :=
    (m.sessions.filter (fun p => now - p.2.created_at_utc > m.ttl)).map Prod.fst
  ({ m with sessions := m.sessions.filter (fun p => p.1 ∉ expired) },
   expired.length)

/-- C7: on a registry whose keys are distinct (a dict guarantees this),
the sweep removes exactly the sessions whose age strictly exceeds the
TTL, keeps exactly those whose age does not exceed it, and returns the
number of sessions removed. -/
theorem C7_cleanup_expired (m : SessionManager) (now : Int)
    (hkeys : (m.sessions.map Prod.fst).Nodup) :
    (cleanup_expired m now).1.sessions
      = m.sessions.filter (fun p => ¬ now - p.2.created_at_utc > m.ttl)
  ∧ (cleanup_expired m now).2
      = (m.sessions.filter (fun p => now - p.2.created_at_utc > m.ttl)).length
  ∧ (∀ p ∈ m.sessions,
       (p ∈ (cleanup_expired m now).1.sessions
         ↔ now - p.2.created_at_utc ≤ m.ttl)) := by
  have hfilters : (cleanup_expired m now).1.sessions
      = m.sessions.filter (fun p => ¬ now - p.2.created_at_utc > m.ttl) := by
    simp only [cleanup_expired]
    apply List.filter_congr
    intro p hp
    simp only [decide_eq_decide]
    constructor
    · intro hnot hgt
      exact hnot (List.mem_map.mpr
        ⟨p, List.mem_filter.mpr ⟨hp, by simpa using hgt⟩, rfl⟩)
    · intro hle hmem
      rcases List.mem_map.mp hmem with ⟨q, hq, hq1⟩
      rcases List.mem_filter.mp hq with ⟨hqmem, hqpred⟩
      have : q = p := List.inj_on_of_nodup_map hkeys hqmem hp hq1
      subst this
      exact hle (by simpa using hqpred)
  refine ⟨hfilters, by simp [cleanup_expired], ?_⟩
  intro p hp
  rw [hfilters]
  rw [List.mem_filter]
  constructor
  · intro ⟨_, hpred⟩
    have := of_decide_eq_true hpred
    omega
  · intro hle
    exact ⟨hp, decide_eq_true (by omega)⟩

/-- A session created 31 minutes before the sweep. -/
def staleSession : Session := create_session 1 2 0 "1_old" (-1860)

/-- A session created 10 minutes before the sweep. -/
def freshSession : Session := create_session 1 2 0 "1_new" (-600)

/-- A registry with a 30-minute TTL holding the two sessions above. -/
def demoManager : SessionManager :=
  { ttl := 1800
    sessions := [("1_old", staleSession), ("1_new", freshSession)] }

/-- Witness for C7 at a concrete input: sweeping at time 0 with TTL 30
minutes removes the session created 31 minutes ago, preserves the one
created 10 minutes ago, and reports one removal. -/
theorem C7_cleanup_expired_witness :
    (cleanup_expired demoManager 0).1.sessions = [("1_new", freshSession)]
  ∧ (cleanup_expired demoManager 0).2 = 1 := by
  have h := C7_cleanup_expired demoManager 0 (by decide)
  refine ⟨?_, ?_⟩
  · rw [h.1]; decide
  · rw [h.2.1]; decide

/-- `_session_complete` (`handlers.py` lines 622-629): all four value
fields populated.  It reads only those four fields, so it is unaffected
by the `finalizing` latch write that precedes it in `_finalize_record`. -/
def session_complete (session : Session) : Bool :=
  session.rating.isSome && session.duration_code.isSome
    && session.volume_code.isSome && session.viscosity_code.isSome

/-- Observable events of `_finalize_record`, in program order: latch
writes, the call into `insert_record`, and the registry removal. -/
inductive FinalizeEvent
  | setLatch
  | clearLatch
  | insertAttempt
  | removeSession
deriving DecidableEq

/-- `_finalize_record` (`handlers.py` lines 407-450), as a pure function
of the registry, the session, the resolved timezone (`None` when the user
has none stored) and the outcome of the `insert_record` call
(`insert_ok = false` models the exception branch).  It returns the
registry after the call, the session object's final state, and the event
trace in program order: the latch is set first; an incomplete session or
a missing timezone resets it and returns before any insert; a failed
insert resets it; a successful insert removes the session from the
registry and never touches the latch again.  (The chat replies sent on
each branch carry no session or registry state and are not modelled.) -/
def finalize_record (m : SessionManager) (session : Session)
    (tz : Option String) (insert_ok : Bool) :
    SessionManager × Session × List FinalizeEvent :=
  let session1 := { session with finalizing := true }
  if session_complete session = false then
    (m, { session1 with finalizing := false },
     [FinalizeEvent.setLatch, FinalizeEvent.clearLatch])
  else
    match tz with
    | none =>
      (m, { session1 with finalizing := false },
       [FinalizeEvent.setLatch, FinalizeEvent.clearLatch])
    | some _ =>
      if insert_ok then
        (m.remove session.session_id, session1,
         [FinalizeEvent.setLatch, FinalizeEvent.insertAttempt,
          FinalizeEvent.removeSession])
      else
        (m, { session1 with finalizing := false },
         [FinalizeEvent.setLatch, FinalizeEvent.insertAttempt,
          FinalizeEvent.clearLatch])

/-- C9: the finalizing latch is set first, and set before the persistence
call whenever that call happens; on a failed insert or a missing
precondition the latch ends up false and the registry is untouched (the
session stays registered for retry); on a successful insert the session
is removed from the registry and the latch is never cleared. -/
theorem C9_finalize_latch (m : SessionManager) (session : Session)
    (tz : Option String) (insert_ok : Bool) :
    ((finalize_record m session tz insert_ok).2.2).head?
        = some FinalizeEvent.setLatch
  ∧ (FinalizeEvent.insertAttempt ∈ (finalize_record m session tz insert_ok).2.2 →
       ∃ rest, (finalize_record m session tz insert_ok).2.2
         = FinalizeEvent.setLatch :: FinalizeEvent.insertAttempt :: rest)
  ∧ ((session_complete session = false ∨ tz = none ∨ insert_ok = false) →
       (finalize_record m session tz insert_ok).2.1.finalizing = false
       ∧ (finalize_record m session tz insert_ok).1 = m)
  ∧ (session_complete session = true → tz ≠ none → insert_ok = true →
       (finalize_record m session tz insert_ok).2.1.finalizing = true
       ∧ FinalizeEvent.clearLatch ∉ (finalize_record m session tz insert_ok).2.2
       ∧ (finalize_record m session tz insert_ok).1
           = m.remove session.session_id) := by
  cases hcomp : session_complete session with
  | false =>
    cases tz <;> cases insert_ok <;> simp [finalize_record, hcomp]
  | true =>
    cases tz with
    | none => cases insert_ok <;> simp [finalize_record, hcomp]
    | some z => cases insert_ok <;> simp [finalize_record, hcomp]

/-- A session with all four value fields populated, at step VISCOSITY. -/
def completeSession : Session :=
  { demoSession with
    step := Step.VISCOSITY
    rating := some 5
    duration_code := some DurationCode.LE5
    volume_code := some VolumeCode.LOW
    viscosity_code := some ViscosityCode.V1 }

/-- Witness for C9 at concrete inputs: finalizing a complete session with
a stored timezone keeps the latch set on success, and on a failed insert
resets the latch and leaves the registry untouched. -/
theorem C9_finalize_latch_witness :
    (finalize_record demoManager completeSession (some "Asia/Tokyo") true).2.1.finalizing
        = true
  ∧ (finalize_record demoManager completeSession (some "Asia/Tokyo") false).2.1.finalizing
        = false
  ∧ (finalize_record demoManager completeSession (some "Asia/Tokyo") false).1
        = demoManager := by
  have h1 := C9_finalize_latch demoManager completeSession (some "Asia/Tokyo") true
  have h2 := C9_finalize_latch demoManager completeSession (some "Asia/Tokyo") false
  exact ⟨(h1.2.2.2 (by decide) (by simp) rfl).1,
         (h2.2.2.1 (Or.inr (Or.inr rfl))).1,
         (h2.2.2.1 (Or.inr (Or.inr rfl))).2⟩

/-- A row of the `records` table (`db.py` schema, `repositories.py`
`insert_record`): `id` is `INTEGER PRIMARY KEY AUTOINCREMENT`, so ids in
a real table are pairwise distinct; timestamps are embedded as `ℚ`. -/
structure RecordRow where
  id : Nat
  user_id : Int
  timestamp_utc : ℚ
  timezone : String
  timestamp_local : ℚ
  rating : Int
  duration_code : DurationCode
  volume_code : VolumeCode
  viscosity_code : ViscosityCode
  created_at_utc : ℚ
deriving DecidableEq

/-- `RecordRepository.soft_delete_record` (`repositories.py` lines
169-174): `DELETE FROM records WHERE id = ? AND user_id = ?` followed by
`rowcount > 0`.  Returns the table after the hard delete and the Bool the
method returns. -/
def soft_delete_record (table : List RecordRow) (record_id : Nat)
    (user_id : Int) : List RecordRow × Bool :=
  (table.filter (fun r => ¬ (r.id = record_id ∧ r.user_id = user_id)),
   0 < (table.filter (fun r => r.id = record_id ∧ r.user_id = user_id)).length)

/-- `RecordRepository.count_all_records` (`repositories.py` lines
203-210): `SELECT COUNT(*) FROM records WHERE user_id = ?`. -/
def count_all_records (table : List RecordRow) (user_id : Int) : Nat :=
  (table.filter (fun r => r.user_id = user_id)).length

/-- No row of `rest` carries the id `rid` when `rid` is absent from the
id column, so a delete keyed on `rid` leaves `rest` untouched. -/
theorem filter_no_id_match (rest : List RecordRow) (rid : Nat) (uid : Int)
    (h : rid ∉ rest.map RecordRow.id) :
    rest.filter (fun x => x.id = rid ∧ x.user_id = uid) = []
    ∧ rest.filter (fun x => ¬ (x.id = rid ∧ x.user_id = uid)) = rest := by
  constructor
  · rw [List.filter_eq_nil_iff]
    intro a ha
    simp only [decide_eq_true_eq]
    intro hc
    exact h (hc.1 ▸ List.mem_map_of_mem RecordRow.id ha)
  · rw [List.filter_eq_self]
    intro a ha
    simp only [decide_eq_true_eq]
    intro hc
    exact h (hc.1 ▸ List.mem_map_of_mem RecordRow.id ha)

/-- C8: the record deletion is a hard delete: it returns true exactly
when a row with the given id owned by the given user existed at call
time; every matching row is gone afterwards and every other row is kept;
under the primary-key uniqueness of `id`, a successful delete lowers the
owner's total record count by exactly one; and repeating the same delete
on the resulting table returns false. -/
theorem C8_delete_record (table : List RecordRow) (rid : Nat) (uid : Int) :
    ((soft_delete_record table rid uid).2 = true
       ↔ ∃ r ∈ table, r.id = rid ∧ r.user_id = uid)
  ∧ (∀ r ∈ (soft_delete_record table rid uid).1,
       ¬ (r.id = rid ∧ r.user_id = uid))
  ∧ (∀ r ∈ table, ¬ (r.id = rid ∧ r.user_id = uid) →
       r ∈ (soft_delete_record table rid uid).1)
  ∧ ((table.map RecordRow.id).Nodup → (soft_delete_record table rid uid).2 = true →
       count_all_records (soft_delete_record table rid uid).1 uid + 1
         = count_all_records table uid)
  ∧ (soft_delete_record (soft_delete_record table rid uid).1 rid uid).2
       = false := by
  refine ⟨?_, ?_, ?_, ?_, ?_⟩
  · simp only [soft_delete_record, decide_eq_true_eq]
    rw [← List.countP_eq_length_filter, List.countP_pos_iff]
    simp
  · intro r hr
    simp only [soft_delete_record, List.mem_filter, decide_eq_true_eq] at hr
    exact hr.2
  · intro r hr hnm
    simp only [soft_delete_record, List.mem_filter, decide_eq_true_eq]
    exact ⟨hr, hnm⟩
  · induction table with
    | nil => intro _ h; simp [soft_delete_record] at h
    | cons r rest ih =>
      intro hnd hsucc
      simp only [List.map_cons, List.nodup_cons] at hnd
      by_cases hm : r.id = rid ∧ r.user_id = uid
      · have hrest := filter_no_id_match rest rid uid (hm.1 ▸ hnd.1)
        simp only [soft_delete_record, count_all_records, List.filter_cons,
          decide_eq_true_eq]
        rw [if_neg (by simp [hm]), if_pos (by simp [hm.2]), hrest.2]
        simp
      · have hsucc' : (soft_delete_record rest rid uid).2 = true := by
          simp only [soft_delete_record, List.filter_cons] at hsucc ⊢
          rwa [if_neg (by simp [hm])] at hsucc
        have hcount := ih hnd.2 hsucc'
        simp only [soft_delete_record, count_all_records] at hcount ⊢
        by_cases hu : r.user_id = uid
        · have hid : ¬ r.id = rid := fun hh => hm ⟨hh, hu⟩
          simp [List.filter_cons, hu, hid] at hcount ⊢
          omega
        · simp [List.filter_cons, hm, hu] at hcount ⊢
          omega
  · simp only [soft_delete_record, List.filter_filter]
    rw [List.filter_eq_nil_iff.mpr]
    · simp
    · intro a _
      simp

/-- Two concrete record rows owned by the same user. -/
def demoRow1 : RecordRow :=
  { id := 1
    user_id := 7
    timestamp_utc := 100
    timezone := "Asia/Tokyo"
    timestamp_local := 100
    rating := 5
    duration_code := DurationCode.LE5
    volume_code := VolumeCode.LOW
    viscosity_code := ViscosityCode.V1
    created_at_utc := 100 }

/-- A second row with a distinct primary key. -/
def demoRow2 : RecordRow :=
  { demoRow1 with
    id := 2
    timestamp_utc := 200
    timestamp_local := 200
    created_at_utc := 200 }

/-- Witness for C8 at a concrete input: deleting record 1 of user 7 from
a two-row table succeeds, drops user 7's count from 2 to 1, and a second
attempt with the same id reports "not found". -/
theorem C8_delete_record_witness :
    (soft_delete_record [demoRow1, demoRow2] 1 7).2 = true
  ∧ count_all_records (soft_delete_record [demoRow1, demoRow2] 1 7).1 7 + 1
      = count_all_records [demoRow1, demoRow2] 7
  ∧ count_all_records [demoRow1, demoRow2] 7 = 2
  ∧ (soft_delete_record (soft_delete_record [demoRow1, demoRow2] 1 7).1 1 7).2
      = false := by
  have h := C8_delete_record [demoRow1, demoRow2] 1 7
  have hsucc : (soft_delete_record [demoRow1, demoRow2] 1 7).2 = true :=
    h.1.mpr ⟨demoRow1, by simp, by simp [demoRow1], by simp [demoRow1]⟩
  exact ⟨hsucc, h.2.2.2.1 (by simp [demoRow1, demoRow2]) hsucc, by decide,
    h.2.2.2.2⟩

/-- A row of the `users` table (`db.py` schema, `repositories.py`
`UserProfile`): `user_id` is the primary key; timestamps embedded as
`Int` seconds. -/
structure UserRow where
  user_id : Int
  nickname : Option String
  timezone : Option String
  height_cm : Option Int
  weight_kg : Option ℚ
  birthday : Option String
  created_at_utc : Int
  updated_at_utc : Int
deriving DecidableEq

/-- The `DO UPDATE SET` clause of `UserRepository.upsert_timezone`
(`repositories.py` lines 30-44), applied to the conflicting row:
`timezone = excluded.timezone`, `nickname = COALESCE(users.nickname,
excluded.nickname)`, `updated_at_utc = excluded.updated_at_utc`; every
other column is untouched. -/
def upsert_timezone_update (row : UserRow) (timezone : String)
    (nickname : Option String) (now : Int) : UserRow :=
  { row with
    timezone := some timezone
    nickname := match row.nickname with
                | some n => some n
                | none => nickname
    updated_at_utc := now }

/-- `UserRepository.upsert_timezone` (`repositories.py` lines 30-44):
`INSERT ... ON CONFLICT(user_id) DO UPDATE`.  With `user_id` a primary
key, the conflict branch rewrites exactly the matching row; without a
conflict a fresh row is inserted with the supplied values and the other
profile columns NULL. -/
def upsert_timezone (table : List UserRow) (user_id : Int) (timezone : String)
    (now : Int) (nickname : Option String) : List UserRow :=
  if table.any (fun r => r.user_id = user_id) then
    table.map (fun r =>
      if r.user_id = user_id then upsert_timezone_update r timezone nickname now
      else r)
  else
    table ++ [{ user_id := user_id
                nickname := nickname
                timezone := some timezone
                height_cm := none
                weight_kg := none
                birthday := none
                created_at_utc := now
                updated_at_utc := now }]

/-- C10: `upsert_timezone` never overwrites an already-set nickname: a
stored row with a non-null nickname is replaced by a row that differs
only in `timezone` and `updated_at_utc`; the supplied nickname is
persisted only into a newly created row or into a row whose nickname
column is NULL; rows of other users are untouched. -/
theorem C10_upsert_timezone (table : List UserRow) (uid : Int) (tz : String)
    (now : Int) (nick : Option String) :
    (∀ row n, row.nickname = some n →
       upsert_timezone_update row tz nick now
         = { row with timezone := some tz, updated_at_utc := now })
  ∧ (∀ row, row.nickname = none →
       (upsert_timezone_update row tz nick now).nickname = nick)
  ∧ ((∀ r ∈ table, r.user_id ≠ uid) →
       upsert_timezone table uid tz now nick
         = table ++ [{ user_id := uid
                       nickname := nick
                       timezone := some tz
                       height_cm := none
                       weight_kg := none
                       birthday := none
                       created_at_utc := now
                       updated_at_utc := now }])
  ∧ (∀ row ∈ table, row.user_id = uid → ∀ n, row.nickname = some n →
       { row with timezone := some tz, updated_at_utc := now }
         ∈ upsert_timezone table uid tz now nick)
  ∧ (∀ row ∈ table, row.user_id ≠ uid →
       row ∈ upsert_timezone table uid tz now nick) := by
  refine ⟨?_, ?_, ?_, ?_, ?_⟩
  · intro row n hn
    simp only [upsert_timezone_update, hn]
  · intro row hn
    simp only [upsert_timezone_update, hn]
  · intro hno
    rw [upsert_timezone, if_neg]
    simp only [List.any_eq_true, decide_eq_true_eq, not_exists]
    intro r hmem
    exact hno r hmem.1 hmem.2
  · intro row hmem huid n hn
    rw [upsert_timezone, if_pos]
    · have : { row with timezone := some tz, updated_at_utc := now }
          = if row.user_id = uid then upsert_timezone_update row tz nick now
            else row := by
        rw [if_pos huid]
        simp only [upsert_timezone_update, hn]
      rw [this]
      exact List.mem_map_of_mem _ hmem
    · simp only [List.any_eq_true, decide_eq_true_eq]
      exact ⟨row, hmem, huid⟩
  · intro row hmem huid
    by_cases hany : table.any (fun r => decide (r.user_id = uid)) = true
    · rw [upsert_timezone, if_pos hany]
      have hm2 : (if row.user_id = uid then upsert_timezone_update row tz nick now
          else row) ∈ table.map (fun r =>
            if r.user_id = uid then upsert_timezone_update r tz nick now else r) :=
        List.mem_map_of_mem _ hmem
      rwa [if_neg huid] at hm2
    · rw [upsert_timezone, if_neg hany]
      exact List.mem_append_left _ hmem

/-- A stored user row whose nickname is already set. -/
def demoUserRow : UserRow :=
  { user_id := 7
    nickname := some "kept"
    timezone := some "UTC"
    height_cm := some 170
    weight_kg := none
    birthday := none
    created_at_utc := 10
    updated_at_utc := 10 }

/-- Witness for C10 at a concrete input: upserting a new timezone with a
different nickname for a user whose row already has one changes only the
timezone and `updated_at_utc`. -/
theorem C10_upsert_timezone_witness :
    { demoUserRow with timezone := some "Asia/Tokyo", updated_at_utc := 99 }
      ∈ upsert_timezone [demoUserRow] 7 "Asia/Tokyo" 99 (some "ignored")
  ∧ (upsert_timezone_update demoUserRow "Asia/Tokyo" (some "ignored") 99).nickname
      = some "kept" := by
  have h := C10_upsert_timezone [demoUserRow] 7 "Asia/Tokyo" 99 (some "ignored")
  refine ⟨h.2.2.2.1 demoUserRow (by simp) rfl "kept" rfl, ?_⟩
  rw [h.1 demoUserRow "kept" rfl]
  rfl

/-- `StatsService._average_rate` (`stats.py` lines 50-66).  Time is
embedded in days as `ℚ` (the source computes with exact `timedelta`
values and one float division, idealized here as rational arithmetic);
`total` is the value `count_all_records` returns for the user (the count
of all records ever, fetched inside the source method). -/
def average_rate (first_record : Option ℚ) (now : ℚ) (period_days : ℚ)
    (total : Nat) : Option ℚ :=
  match first_record with
  | none => none
  | some first =>
    let elapsed := now - first
    if elapsed < period_days then none
    else
      let periods := elapsed / period_days
      if periods ≤ 0 then none
      else some ((total : ℚ) / periods)

/-- C4: for a positive period, the rate is unavailable (`none`, not zero)
when the user has no first record or the elapsed history is shorter than
the period; otherwise it equals the all-time record count divided by the
elapsed time measured in periods. -/
theorem C4_average_rate (first : Option ℚ) (now period : ℚ) (total : Nat)
    (hp : 0 < period) :
    (first = none → average_rate first now period total = none)
  ∧ (∀ f, first = some f → now - f < period →
       average_rate first now period total = none)
  ∧ (∀ f, first = some f → period ≤ now - f →
       average_rate first now period total
         = some ((total : ℚ) / ((now - f) / period))) := by
  refine ⟨?_, ?_, ?_⟩
  · intro h
    rw [h]
    rfl
  · intro f hf hlt
    rw [hf]
    simp only [average_rate]
    rw [if_pos hlt]
  · intro f hf hge
    rw [hf]
    simp only [average_rate]
    rw [if_neg (not_lt.mpr hge),
      if_neg (not_le.mpr (div_pos (lt_of_lt_of_le hp hge) hp))]

/-- Witness for C4 at the spec's concrete numbers: with the first record
40 days old and 10 records ever, the monthly rate is 10/(40/30) = 7.5 and
the weekly rate is 10/(40/7) = 1.75; with only 3 days of history both are
unavailable, as is everything with no records. -/
theorem C4_average_rate_witness :
    average_rate (some 0) 40 30 10 = some (15 / 2)
  ∧ average_rate (some 0) 40 7 10 = some (7 / 4)
  ∧ average_rate (some 0) 3 30 10 = none
  ∧ average_rate (some 0) 3 7 10 = none
  ∧ average_rate none 40 30 10 = none := by
  refine ⟨?_, ?_, ?_, ?_, ?_⟩
  · rw [(C4_average_rate (some 0) 40 30 10 (by norm_num)).2.2 0 rfl (by norm_num)]
    norm_num
  · rw [(C4_average_rate (some 0) 40 7 10 (by norm_num)).2.2 0 rfl (by norm_num)]
    norm_num
  · exact (C4_average_rate (some 0) 3 30 10 (by norm_num)).2.1 0 rfl (by norm_num)
  · exact (C4_average_rate (some 0) 3 7 10 (by norm_num)).2.1 0 rfl (by norm_num)
  · exact (C4_average_rate none 40 30 10 (by norm_num)).1 rfl

/-- The four fixed bucket labels of `bucketize_hours` (`ui.py` lines
296-301), in dict insertion order. -/
def bucketNames : List String :=
  ["深夜(00-06)", "上午(06-12)", "下午(12-18)", "晚上(18-24)"]

/-- The cascade of range tests in `bucketize_hours` (`ui.py` lines
302-310), as the index of the bucket a local hour falls into (`datetime
.hour` is a natural number, so the `0 <= hour` guard is vacuous). -/
def bucketIndex (hour : Nat) : Nat :=
  if hour < 6 then 0
  else if hour < 12 then 1
  else if hour < 18 then 2
  else 3

/-- `bucketize_hours` (`ui.py` lines 295-311): count the hours falling
into each of the four fixed buckets, in the fixed label order, then drop
the buckets whose count is zero. -/
def bucketize_hours (hours : List Nat) : List (String × Nat) :=
  (bucketNames.zip ((List.range 4).map
      (fun i => (hours.filter (fun h => bucketIndex h = i)).length))).filter
    (fun p => p.2 ≠ 0)

/-- `max(bucket_counts.values())` of `pick_top_bucket` (`ui.py` line
290), as a fold (equal to Python `max` on the nonempty lists it is
applied to). -/
def maxCount (bucket_counts : List (String × Nat)) : Nat :=
  (bucket_counts.map Prod.snd).foldl max 0

/-- `pick_top_bucket` (`ui.py` lines 287-292): `None` on an empty dict,
otherwise every name whose count equals the maximum, joined with
`" / "`. -/
def pick_top_bucket (bucket_counts : List (String × Nat)) : Option String :=
  if bucket_counts.isEmpty then none
  else
    some (String.intercalate " / "
      ((bucket_counts.filter (fun p => p.2 = maxCount bucket_counts)).map
        Prod.fst))

/-- Every hour lands in one of the four buckets: the per-bucket counts
sum to the number of hours. -/
theorem bucket_counts_sum (hours : List Nat) :
    (((List.range 4).map
        (fun i => (hours.filter (fun h => bucketIndex h = i)).length)).sum)
      = hours.length := by
  have h4 : List.range 4 = [0, 1, 2, 3] := rfl
  rw [h4]
  induction hours with
  | nil => rfl
  | cons h hs ih =>
    have hb : bucketIndex h = 0 ∨ bucketIndex h = 1 ∨ bucketIndex h = 2
        ∨ bucketIndex h = 3 := by
      unfold bucketIndex
      split
      · exact Or.inl rfl
      split
      · exact Or.inr (Or.inl rfl)
      split
      · exact Or.inr (Or.inr (Or.inl rfl))
      · exact Or.inr (Or.inr (Or.inr rfl))
    simp only [List.map_cons, List.map_nil, List.sum_cons, List.sum_nil,
      List.filter_cons] at ih ⊢
    rcases hb with hb | hb | hb | hb <;> simp [hb] <;> omega

/-- Dropping zero counts does not change the sum of the counts. -/
theorem sum_filter_ne_zero (l : List (String × Nat)) :
    ((l.filter (fun p => p.2 ≠ 0)).map Prod.snd).sum = (l.map Prod.snd).sum := by
  induction l with
  | nil => rfl
  | cons p l ih =>
    by_cases hp : p.2 = 0 <;>
      simp [List.filter_cons, hp] at ih ⊢ <;> omega

/-- C5: every reported bucket carries one of the four fixed labels and a
positive count (empty buckets are dropped) and the counts account for
every record; on the spec's example hours [1, 5, 13, 23] the histogram is
{深夜:2, 下午:1, 晚上:1} with dominant bucket 深夜; and on any nonempty
histogram the reported label joins exactly the buckets tied for the
maximum count (ties are not broken). -/
theorem C5_hour_buckets :
    (∀ hours : List Nat,
       ((bucketize_hours hours).map Prod.snd).sum = hours.length
       ∧ ∀ p ∈ bucketize_hours hours, p.1 ∈ bucketNames ∧ 0 < p.2)
  ∧ bucketize_hours [1, 5, 13, 23]
      = [("深夜(00-06)", 2), ("下午(12-18)", 1), ("晚上(18-24)", 1)]
  ∧ pick_top_bucket (bucketize_hours [1, 5, 13, 23]) = some "深夜(00-06)"
  ∧ (∀ bc : List (String × Nat), bc ≠ [] →
       ∃ parts : List String,
         pick_top_bucket bc = some (String.intercalate " / " parts)
         ∧ (∀ q ∈ bc, q.2 = maxCount bc → q.1 ∈ parts)
         ∧ (∀ s ∈ parts, ∃ q ∈ bc, q.1 = s ∧ q.2 = maxCount bc)) := by
  refine ⟨?_, by decide, by decide, ?_⟩
  · intro hours
    constructor
    · rw [bucketize_hours, sum_filter_ne_zero,
        List.map_snd_zip _ _ (by simp [bucketNames]), bucket_counts_sum]
    · intro p hp
      rcases List.mem_filter.mp hp with ⟨hz, hpos⟩
      constructor
      · exact (List.of_mem_zip hz).1
      · simp only [decide_eq_true_eq] at hpos
        omega
  · intro bc hne
    refine ⟨(bc.filter (fun p => p.2 = maxCount bc)).map Prod.fst, ?_, ?_, ?_⟩
    · rw [pick_top_bucket, if_neg (by simp [hne])]
    · intro q hq hmax
      exact List.mem_map_of_mem _ (List.mem_filter.mpr ⟨hq, by simp [hmax]⟩)
    · intro s hs
      rcases List.mem_map.mp hs with ⟨q, hqf, rfl⟩
      rcases List.mem_filter.mp hqf with ⟨hqm, hqmax⟩
      exact ⟨q, hqm, rfl, by simpa using hqmax⟩

/-- Witness for C5: the universally quantified first clause evaluated on
the spec's example hours, and the tie clause on a two-way tie, via the
theorem itself. -/
theorem C5_hour_buckets_witness :
    ((bucketize_hours [1, 5, 13, 23]).map Prod.snd).sum = 4
  ∧ ∃ parts : List String,
      pick_top_bucket [("a", 2), ("b", 1), ("c", 2)]
        = some (String.intercalate " / " parts)
      ∧ "a" ∈ parts ∧ "c" ∈ parts := by
  constructor
  · exact (C5_hour_buckets.1 [1, 5, 13, 23]).1
  · rcases C5_hour_buckets.2.2.2 [("a", 2), ("b", 1), ("c", 2)] (by simp)
      with ⟨parts, hpick, hcomplete, _⟩
    exact ⟨parts, hpick, hcomplete ("a", 2) (by simp) (by decide),
      hcomplete ("c", 2) (by simp) (by decide)⟩

/-- `StatsService._interval_stats` (`stats.py` lines 68-82) on the rows
returned by `list_records_in_range` (which the repository orders by
`timestamp_utc` ascending): with fewer than 2 entries the average
interval is `None` and "time since last" uses the single entry if
present; otherwise the average interval is the mean of the consecutive
UTC gaps (`zip(timestamps, timestamps[1:])`) and "time since last" is
`now` minus the last timestamp. -/
def interval_stats (entries : List RecordRow) (now : ℚ) :
    Option ℚ × Option ℚ :=
  if entries.length < 2 then
    (none, (entries.getLast?).map (fun e => now - e.timestamp_utc))
  else
    let timestamps := entries.map (fun e => e.timestamp_utc)
    let diffs := (timestamps.zip timestamps.tail).map (fun p => p.2 - p.1)
    (some (diffs.sum / (diffs.length : ℚ)),
     (timestamps.getLast?).map (fun t => now - t))

/-- The consecutive gaps of a list telescope: their sum is the last
element minus the first. -/
theorem gap_sum (a : ℚ) (ts : List ℚ) :
    (((a :: ts).zip ts).map (fun p => p.2 - p.1)).sum = ts.getLastD a - a := by
  induction ts generalizing a with
  | nil => simp
  | cons b ts ih =>
    simp only [List.zip_cons_cons, List.map_cons, List.sum_cons, ih b,
      List.getLastD_cons]
    ring

/-- C6: with no entries both statistics are unavailable; with exactly one
entry the average interval is unavailable and "time since last" is `now`
minus that entry's UTC timestamp; with at least two entries "time since
last" is `now` minus the last entry's UTC timestamp and the average
interval is the arithmetic mean of the consecutive gaps — equivalently,
by telescoping, (last − first) / (n − 1). -/
theorem C6_interval_stats (entries : List RecordRow) (now : ℚ) :
    (entries = [] → interval_stats entries now = (none, none))
  ∧ (∀ e, entries = [e] →
       interval_stats entries now = (none, some (now - e.timestamp_utc)))
  ∧ (2 ≤ entries.length →
       (∀ last, entries.getLast? = some last →
          (interval_stats entries now).2 = some (now - last.timestamp_utc))
       ∧ (∃ ds : List ℚ,
            ds = ((entries.map fun e => e.timestamp_utc).zip
                    (entries.map fun e => e.timestamp_utc).tail).map
                  (fun p => p.2 - p.1)
            ∧ (interval_stats entries now).1 = some (ds.sum / (ds.length : ℚ))
            ∧ ds.length + 1 = entries.length)
       ∧ (∀ first last, entries.head? = some first →
            entries.getLast? = some last →
            (interval_stats entries now).1
              = some ((last.timestamp_utc - first.timestamp_utc)
                        / ((entries.length : ℚ) - 1)))) := by
  refine ⟨?_, ?_, ?_⟩
  · intro h
    rw [h]
    rfl
  · intro e h
    rw [h]
    rfl
  · intro h2
    obtain ⟨e, rest, rfl⟩ : ∃ e rest, entries = e :: rest := by
      cases entries with
      | nil => simp at h2
      | cons e rest => exact ⟨e, rest, rfl⟩
    obtain ⟨f, rest2, rfl⟩ : ∃ f rest2, rest = f :: rest2 := by
      cases rest with
      | nil => simp at h2
      | cons f r => exact ⟨f, r, rfl⟩
    have hnlt : ¬ (e :: f :: rest2).length < 2 := by
      simp only [List.length_cons]
      omega
    have hlen : ((e :: f :: rest2).map fun x => x.timestamp_utc).tail
        = (f :: rest2).map fun x => x.timestamp_utc := by
      simp
    refine ⟨?_, ?_, ?_⟩
    · intro last hlast
      simp only [interval_stats, if_neg hnlt]
      rw [List.getLast?_map]
      rw [hlast]
      rfl
    · refine ⟨_, rfl, ?_, ?_⟩
      · simp only [interval_stats, if_neg hnlt]
      · rw [List.length_map, List.length_zip, List.length_map, hlen,
          List.length_map]
        simp only [List.length_cons]
        omega
    · intro first last hfirst hlast
      obtain rfl : first = e := by
        simp only [List.head?_cons, Option.some.injEq] at hfirst
        exact hfirst.symm
      simp only [interval_stats, if_neg hnlt]
      have hmap : (first :: f :: rest2).map (fun x => x.timestamp_utc)
          = first.timestamp_utc :: (f :: rest2).map (fun x => x.timestamp_utc) := by
        simp
      rw [hmap]
      have htail : (first.timestamp_utc
            :: (f :: rest2).map fun x => x.timestamp_utc).tail
          = (f :: rest2).map fun x => x.timestamp_utc := rfl
      rw [htail, gap_sum]
      have hlastts : ((f :: rest2).map fun x => x.timestamp_utc).getLastD
          first.timestamp_utc = last.timestamp_utc := by
        rw [List.getLastD_eq_getLast?, List.getLast?_map]
        rw [List.getLast?_cons_cons] at hlast
        rw [hlast]
        rfl
      rw [hlastts]
      have hdlen : (((first.timestamp_utc
              :: (f :: rest2).map fun x => x.timestamp_utc).zip
            ((f :: rest2).map fun x => x.timestamp_utc)).map
          (fun p => p.2 - p.1)).length = rest2.length + 1 := by
        rw [List.length_map, List.length_zip]
        simp
      rw [hdlen]
      have hclen : ((first :: f :: rest2).length : ℚ) - 1
          = (rest2.length : ℚ) + 1 := by
        simp only [List.length_cons]
        push_cast
        ring
      rw [hclen]
      norm_cast

/-- Witness for C6 at concrete inputs: three records at times 0, 2, 10
give an average interval of 5 = ((2-0)+(10-2))/2 = (10-0)/(3-1) and a
"time since last" of `now` − 10; a single record at time 3 gives no
average and "time since last" `now` − 3. -/
theorem C6_interval_stats_witness :
    (interval_stats [demoRow1] 12).1 = none
  ∧ (interval_stats [demoRow1] 112).2 = some 12
  ∧ (interval_stats [demoRow1, demoRow2,
        { demoRow1 with id := 3, timestamp_utc := 300 }] 350).1 = some 100
  ∧ (interval_stats [demoRow1, demoRow2,
        { demoRow1 with id := 3, timestamp_utc := 300 }] 350).2 = some 50 := by
  have h1 := (C6_interval_stats [demoRow1] 12).2.1 demoRow1 rfl
  have h1b := (C6_interval_stats [demoRow1] 112).2.1 demoRow1 rfl
  have h3 := (C6_interval_stats [demoRow1, demoRow2,
      { demoRow1 with id := 3, timestamp_utc := 300 }] 350).2.2 (by simp)
  refine ⟨?_, ?_, ?_, ?_⟩
  · rw [h1]
  · rw [h1b]
    norm_num [demoRow1]
  · rw [h3.2.2 demoRow1 { demoRow1 with id := 3, timestamp_utc := 300 } rfl rfl]
    norm_num [demoRow1]
  · rcases h3 with ⟨hlast, _, _⟩
    rw [hlast { demoRow1 with id := 3, timestamp_utc := 300 } rfl]
    norm_num

end OnaniMemo
